import Mathlib

/-!
pipelines-as-code: the GitHub adapter (`pkg/webvcs/github/github.go`)

A shallow embedding of the GitHub adapter: the manifest aggregator
(`concatAllYamlFiles`, `GetTektonDir`, `getObject`), the pull-request
resolver (`getPullRequest`) and the check-run reporter (`createCheckRun`,
`CreateStatus`).

Conventions of the embedding.

* A Go `string` is a Lean `String`.  The only tests the code makes on strings
  are equality with, and prefix / suffix by, ASCII literals.
* A Go pointer that may be `nil` is an `Option`; the `GetX` accessors of
  go-github return the zero value on `nil`, as in the library.
* A Go `error` is `Option GoError` (`none` is `nil`), and a function returning
  `(string, error)` returns a pair.
* The GitHub API client is a record of answer functions (`Client`).  Every
  request the adapter sends is appended to a log of `ApiCall`s, oldest first,
  so that the number and the order of the requests can be stated.
* `time.Now()` is a parameter of the operation that reads the clock.
-/

namespace Github

/-! ## Data model -/

/-- A Go `error` value, identified by its message. -/
structure GoError where
  msg : String
  deriving DecidableEq, Repr

/-- Modelled from the spec: `info.Event` (package `pkg/params/info`, whose
declaration is not among the sources).  The fields are those the adapter reads
or writes; `CheckRunID` is a `*int64`. -/
structure Event where
  Owner : String
  Repository : String
  SHA : String
  URL : String
  SHAURL : String
  SHATitle : String
  BaseBranch : String
  HeadBranch : String
  DefaultBranch : String
  Sender : String
  EventType : String
  CheckRunID : Option Int
  deriving DecidableEq, Repr

/-- Modelled from the spec: `info.PacOpts` (package `pkg/params/info`), the
fields the adapter reads. -/
structure PacOpts where
  ApplicationName : String
  LogURL : String
  VCSToken : String
  VCSAPIURL : String
  deriving DecidableEq, Repr

/-- Modelled from the spec: `webvcs.StatusOpts` (package `pkg/webvcs`). -/
structure StatusOpts where
  Status : String
  Conclusion : String
  Text : String
  DetailsURL : String
  deriving DecidableEq, Repr

/-- The fields of `github.RepositoryContent` the adapter reads (`*string`s). -/
structure RepositoryContent where
  Name : Option String
  SHA : Option String
  deriving DecidableEq, Repr

/-- The `GetName` accessor on a `*RepositoryContent`: empty on `nil`. -/
def RepositoryContent.GetName : Option RepositoryContent → String
  | some r => r.Name.getD ""
  | none => ""

/-- The `GetSHA` accessor on a `*RepositoryContent`: empty on `nil`. -/
def RepositoryContent.GetSHA : Option RepositoryContent → String
  | some r => r.SHA.getD ""
  | none => ""

/-- A `github.Response`: the status code of the wrapped HTTP response. -/
structure Response where
  StatusCode : Int
  deriving DecidableEq, Repr

/-- The constant `http.StatusNotFound`. -/
def StatusNotFound : Int := 404

/-- What `Repositories.GetContents` returns:
`(fileContent, directoryContent, resp, err)`. -/
structure ContentsResult where
  fp : Option RepositoryContent
  objects : List (Option RepositoryContent)
  resp : Option Response
  err : Option GoError
  deriving DecidableEq, Repr

/-- What `Git.GetBlob` returns, `(blob, err)`; of the blob only its `Content`
(a `*string`) is read. -/
structure BlobResult where
  content : Option String
  err : Option GoError
  deriving DecidableEq, Repr

/-- A `github.Repository` as read by the resolver. -/
structure Repo where
  DefaultBranch : Option String
  HTMLURL : Option String
  deriving DecidableEq, Repr

/-- A `github.PullRequestBranch`. -/
structure PullRequestBranch where
  Ref : Option String
  SHA : Option String
  Repo : Option Repo
  deriving DecidableEq, Repr

/-- A `github.User`. -/
structure User where
  Login : Option String
  deriving DecidableEq, Repr

/-- A `github.PullRequest` as read by the resolver. -/
structure PullRequest where
  Base : Option PullRequestBranch
  Head : Option PullRequestBranch
  User : Option User
  HTMLURL : Option String
  deriving DecidableEq, Repr

/-- The `GetDefaultBranch` accessor on a `*Repository`. -/
def Repo.GetDefaultBranch : Option Repo → String
  | some r => r.DefaultBranch.getD ""
  | none => ""

/-- The `GetHTMLURL` accessor on a `*Repository`. -/
def Repo.GetHTMLURL : Option Repo → String
  | some r => r.HTMLURL.getD ""
  | none => ""

/-- The `GetRepo` accessor on a `*PullRequestBranch`. -/
def PullRequestBranch.GetRepo : Option PullRequestBranch → Option Github.Repo
  | some b => b.Repo
  | none => none

/-- The `GetRef` accessor on a `*PullRequestBranch`. -/
def PullRequestBranch.GetRef : Option PullRequestBranch → String
  | some b => b.Ref.getD ""
  | none => ""

/-- The `GetSHA` accessor on a `*PullRequestBranch`. -/
def PullRequestBranch.GetSHA : Option PullRequestBranch → String
  | some b => b.SHA.getD ""
  | none => ""

/-- The `GetLogin` accessor on a `*User`. -/
def User.GetLogin : Option User → String
  | some u => u.Login.getD ""
  | none => ""

/-- The `GetBase` accessor on a `*PullRequest`. -/
def PullRequest.GetBase : Option PullRequest → Option PullRequestBranch
  | some p => p.Base
  | none => none

/-- The `GetHead` accessor on a `*PullRequest`. -/
def PullRequest.GetHead : Option PullRequest → Option PullRequestBranch
  | some p => p.Head
  | none => none

/-- The `GetUser` accessor on a `*PullRequest`. -/
def PullRequest.GetUser : Option PullRequest → Option Github.User
  | some p => p.User
  | none => none

/-- The `GetHTMLURL` accessor on a `*PullRequest`. -/
def PullRequest.GetHTMLURL : Option PullRequest → String
  | some p => p.HTMLURL.getD ""
  | none => ""

/-- What `PullRequests.Get` returns, `(pr, err)`. -/
structure PullRequestResult where
  pr : Option PullRequest
  err : Option GoError
  deriving DecidableEq, Repr

/-- A `github.CreateCheckRunOptions` as filled by `createCheckRun`. -/
structure CreateCheckRunOptions where
  Name : String
  HeadSHA : String
  Status : Option String
  DetailsURL : Option String
  StartedAt : Option Nat
  deriving DecidableEq, Repr

/-- A `github.CheckRunOutput`. -/
structure CheckRunOutput where
  Title : String
  Summary : String
  Text : String
  deriving DecidableEq, Repr

/-- A `github.UpdateCheckRunOptions` as filled by `CreateStatus`. -/
structure UpdateCheckRunOptions where
  Name : String
  Status : Option String
  Output : Option CheckRunOutput
  DetailsURL : Option String
  CompletedAt : Option Nat
  Conclusion : Option String
  deriving DecidableEq, Repr

/-- A `github.CheckRun`; only its `ID` (a `*int64`) is read. -/
structure CheckRun where
  ID : Option Int
  deriving DecidableEq, Repr

/-- What `Checks.CreateCheckRun` returns, `(checkRun, err)`. -/
structure CheckRunResult where
  checkRun : Option CheckRun
  err : Option GoError
  deriving DecidableEq, Repr

/-- A request sent to the GitHub API. -/
inductive ApiCall where
  | getContents (owner repo path ref : String)
  | getBlob (owner repo sha : String)
  | getPullRequest (owner repo : String) (number : Int)
  | createCheckRun (owner repo : String) (opts : CreateCheckRunOptions)
  | updateCheckRun (owner repo : String) (id : Int) (opts : UpdateCheckRunOptions)
  deriving DecidableEq, Repr

/-- The collaborators of the adapter: the answers of the GitHub API client
(`v.Client`) and of `base64.StdEncoding.DecodeString`.  Read requests are
answered as a function of the request; the Checks API also sees the requests
sent before (the provider allocates the identifiers of the check runs). -/
structure Client where
  GetContents : String → String → String → String → ContentsResult
  GetBlob : String → String → String → BlobResult
  DecodeString : String → Except GoError String
  PullRequestsGet : String → String → Int → PullRequestResult
  CreateCheckRun : List ApiCall → String → String → CreateCheckRunOptions → CheckRunResult
  UpdateCheckRun : List ApiCall → String → String → Int → UpdateCheckRunOptions → Option GoError

/-! ## Strings -/

/-- Go `strings.HasPrefix`. -/
def HasPrefix (s pre : String) : Bool := pre.data.isPrefixOf s.data

/-- Go `strings.HasSuffix`. -/
def HasSuffix (s suf : String) : Bool := suf.data.isSuffixOf s.data

/-! ## Manifest aggregator -/

/-- The method `getObject`: fetch the blob `sha` and base64-decode its content.
Returns `(data, err)` and the request log. -/
def getObject (c : Client) (log : List ApiCall) (sha : String) (runevent : Event) :
    (Option String × Option GoError) × List ApiCall :=
  let blob := c.GetBlob runevent.Owner runevent.Repository sha
  let log := log ++ [ApiCall.getBlob runevent.Owner runevent.Repository sha]
  match blob.err with
  | some err => ((none, some err), log)
  | none =>
    match c.DecodeString (blob.content.getD "") with
    | .error err => ((none, some err), log)
    | .ok decoded => ((some decoded, none), log)

/-- The loop of `concatAllYamlFiles`, from the accumulator `allTemplates` over
the remaining `objects`. -/
def concatLoop (c : Client) (runevent : Event) :
    List (Option RepositoryContent) → String → List ApiCall →
      (String × Option GoError) × List ApiCall
  | [], allTemplates, log => ((allTemplates, none), log)
  | value :: rest, allTemplates, log =>
    if HasSuffix (RepositoryContent.GetName value) ".yaml" ||
        HasSuffix (RepositoryContent.GetName value) ".yml" then
      match getObject c log (RepositoryContent.GetSHA value) runevent with
      | ((_, some err), log) => (("", some err), log)
      | ((data, none), log) =>
        let data := data.getD ""
        let allTemplates :=
          if allTemplates != "" && !HasPrefix data "---" then allTemplates ++ "---"
          else allTemplates
        concatLoop c runevent rest (allTemplates ++ ("\n" ++ data ++ "\n")) log
    else concatLoop c runevent rest allTemplates log

/-- The method `concatAllYamlFiles`: concatenate all yaml files of a directory
listing as one multi-document yaml string. -/
def concatAllYamlFiles (c : Client) (log : List ApiCall)
    (objects : List (Option RepositoryContent)) (runevent : Event) :
    (String × Option GoError) × List ApiCall :=
  concatLoop c runevent objects "" log

/-- The method `GetTektonDir`: all yaml files of the directory `path` at
`runevent.SHA`, as a single concatenated file. -/
def GetTektonDir (c : Client) (log : List ApiCall) (runevent : Event) (path : String) :
    (String × Option GoError) × List ApiCall :=
  let r := c.GetContents runevent.Owner runevent.Repository path runevent.SHA
  let log := log ++ [ApiCall.getContents runevent.Owner runevent.Repository path runevent.SHA]
  if r.fp.isSome then
    (("", some ⟨"the object " ++ path ++ " is a file instead of a directory"⟩), log)
  else if (match r.resp with
      | some resp => resp.StatusCode == StatusNotFound
      | none => false) then
    (("", none), log)
  else
    match r.err with
    | some err => (("", some err), log)
    | none => concatAllYamlFiles c log r.objects runevent

/-! ## Pull-request resolver -/

/-- The method `getPullRequest`: fetch the details of pull request `prNumber`
and fill the event from them.  Returns `(runevent, err)` and the request log. -/
def getPullRequest (c : Client) (log : List ApiCall) (runevent : Event) (prNumber : Int) :
    (Event × Option GoError) × List ApiCall :=
  let r := c.PullRequestsGet runevent.Owner runevent.Repository prNumber
  let log := log ++ [ApiCall.getPullRequest runevent.Owner runevent.Repository prNumber]
  match r.err with
  | some err => ((runevent, some err), log)
  | none =>
    let pr := r.pr
    let runevent := { runevent with
      DefaultBranch := Repo.GetDefaultBranch (PullRequestBranch.GetRepo (PullRequest.GetBase pr)) }
    let runevent := { runevent with
      URL := Repo.GetHTMLURL (PullRequestBranch.GetRepo (PullRequest.GetBase pr)) }
    let runevent := { runevent with SHA := PullRequestBranch.GetSHA (PullRequest.GetHead pr) }
    let runevent := { runevent with
      SHAURL := PullRequest.GetHTMLURL pr ++ "/commit/" ++
        PullRequestBranch.GetSHA (PullRequest.GetHead pr) }
    let runevent := { runevent with Sender := User.GetLogin (PullRequest.GetUser pr) }
    let runevent := { runevent with HeadBranch := PullRequestBranch.GetRef (PullRequest.GetHead pr) }
    let runevent := { runevent with BaseBranch := PullRequestBranch.GetRef (PullRequest.GetBase pr) }
    let runevent := { runevent with EventType := "pull_request" }
    ((runevent, none), log)

/-! ## Check-run reporter -/

/-- How a call ends: it returns its `error` result, or it panics on a `nil`
pointer dereference. -/
inductive Outcome where
  | returned (err : Option GoError)
  | panicked
  deriving DecidableEq, Repr

/-- The method `createCheckRun`: create a check run named after the
application on `runevent.SHA`; `now` is the reading of `time.Now()`. -/
def createCheckRun (c : Client) (now : Nat) (log : List ApiCall) (status : String)
    (runevent : Event) (pacopts : PacOpts) : CheckRunResult × List ApiCall :=
  let checkrunoption : CreateCheckRunOptions :=
    { Name := pacopts.ApplicationName
      HeadSHA := runevent.SHA
      Status := some status
      DetailsURL := some pacopts.LogURL
      StartedAt := some now }
  (c.CreateCheckRun log runevent.Owner runevent.Repository checkrunoption,
    log ++ [ApiCall.createCheckRun runevent.Owner runevent.Repository checkrunoption])

/-- The body of `CreateStatus` between the creation of the check run and the
update request: the `github.UpdateCheckRunOptions` built from the application
name and the status, `now` being the reading of `time.Now()`. -/
def statusOptions (now : Nat) (pacopts : PacOpts) (status : StatusOpts) :
    UpdateCheckRunOptions :=
  let title := ""
  let summary := ""
  let (title, summary) :=
    if status.Conclusion = "success" then
      ("✅ Success", pacopts.ApplicationName ++ " has successfully validated your commit.")
    else if status.Conclusion = "failure" then
      ("❌ Failed", pacopts.ApplicationName ++ " has <b>failed</b>.")
    else if status.Conclusion = "skipped" then
      ("➖ Skipped", pacopts.ApplicationName ++ " is skipping this commit.")
    else if status.Conclusion = "neutral" then
      ("❓ Unknown", pacopts.ApplicationName ++ " doesn't know what happened with this commit.")
    else (title, summary)
  let (title, summary) :=
    if status.Status = "in_progress" then
      ("CI has Started", pacopts.ApplicationName ++ " is running.")
    else (title, summary)
  let checkRunOutput : CheckRunOutput :=
    { Title := title, Summary := summary, Text := status.Text }
  let opts : UpdateCheckRunOptions :=
    { Name := pacopts.ApplicationName
      Status := some status.Status
      Output := some checkRunOutput
      DetailsURL := none
      CompletedAt := none
      Conclusion := none }
  let opts := if status.DetailsURL ≠ "" then { opts with DetailsURL := some status.DetailsURL }
    else opts
  -- Only set completed-at if conclusion is set (which means finished)
  let opts :=
    if status.Conclusion ≠ "" then
      { opts with CompletedAt := some now, Conclusion := some status.Conclusion }
    else opts
  opts

/-- The method `CreateStatus`.  `nowCreate` is the clock reading inside
`createCheckRun`, `now` the one of `CreateStatus` itself.  Returns the event as
the call leaves it, how the call ends, and the request log. -/
def CreateStatus (c : Client) (nowCreate now : Nat) (log : List ApiCall) (runevent : Event)
    (pacopts : PacOpts) (status : StatusOpts) : (Event × Outcome) × List ApiCall :=
  let checkrunid := runevent.CheckRunID
  -- Create initial checkrun if not exist
  let created : Except Outcome (Option Int) × List ApiCall :=
    match checkrunid with
    | some id => (.ok (some id), log)
    | none =>
      match createCheckRun c nowCreate log "in_progress" runevent pacopts with
      | (⟨_, some err⟩, log) => (.error (Outcome.returned (some err)), log)
      | (⟨none, none⟩, log) => (.error Outcome.panicked, log)
      | (⟨some createCheckRun, none⟩, log) => (.ok createCheckRun.ID, log)
  match created with
  | (.error out, log) => ((runevent, out), log)
  | (.ok checkrunid, log) =>
    let opts := statusOptions now pacopts status
    match checkrunid with
    | none => ((runevent, Outcome.panicked), log)
    | some id =>
      let err := c.UpdateCheckRun log runevent.Owner runevent.Repository id opts
      ((runevent, Outcome.returned err),
        log ++ [ApiCall.updateCheckRun runevent.Owner runevent.Repository id opts])

/-! ## Commit resolver -/

/-- The loop of Go `strings.Split` for a non-empty separator, on characters:
`cur` is the piece being read, `skip` the number of characters of a separator
just found that are still to be passed over.  The pieces come out in order. -/
def splitAux (sep : List Char) : List Char → Nat → List Char → List (List Char)
  | [], _, cur => [cur]
  | _ :: rest, skip + 1, cur => splitAux sep rest skip cur
  | ch :: rest, 0, cur =>
    if sep.isPrefixOf (ch :: rest) then cur :: splitAux sep rest (sep.length - 1) []
    else splitAux sep rest 0 (cur ++ [ch])

/-- Go `strings.Split`: the pieces of `s` between the occurrences of `sep`,
found from left to right without overlap; with an empty `sep`, the characters
of `s` one by one. -/
def Split (s sep : String) : List String :=
  if sep = "" then s.data.map fun ch => String.mk [ch]
  else (splitAux sep.data s.data 0 []).map String.mk

/-- The fields of `github.Commit` the resolver reads (`*string`s). -/
structure Commit where
  Message : Option String
  HTMLURL : Option String
  deriving DecidableEq, Repr

/-- The `GetMessage` accessor on a `*Commit`: empty on `nil`. -/
def Commit.GetMessage : Option Commit → String
  | some k => k.Message.getD ""
  | none => ""

/-- The `GetHTMLURL` accessor on a `*Commit`: empty on `nil`. -/
def Commit.GetHTMLURL : Option Commit → String
  | some k => k.HTMLURL.getD ""
  | none => ""

/-- What `Git.GetCommit` returns, `(commit, err)`. -/
structure CommitResult where
  commit : Option Commit
  err : Option GoError
  deriving DecidableEq, Repr

/-- The method `populateCommitInfo`: fill `SHAURL` and `SHATitle` of the event
from the commit `runevent.SHA`.  `GetCommit` is the answer of
`v.Client.Git.GetCommit` for an owner, a repository and a commit.  Returns the
event as the call leaves it, and the error.  Element 0 of the split exists,
the separator being non-empty. -/
def populateCommitInfo (GetCommit : String → String → String → CommitResult)
    (runevent : Event) : Event × Option GoError :=
  let r := GetCommit runevent.Owner runevent.Repository runevent.SHA
  match r.err with
  | some err => (runevent, some err)
  | none =>
    let commit := r.commit
    let runevent := { runevent with SHAURL := Commit.GetHTMLURL commit }
    let runevent := { runevent with
      SHATitle := (Split (Commit.GetMessage commit) "\n\n").headD "" }
    (runevent, none)

/-! ## Vocabulary of the statements -/

/-- The suffix test of `concatAllYamlFiles`: the entry's name ends in `.yaml`
or `.yml`. -/
def recognized (value : Option RepositoryContent) : Bool :=
  HasSuffix (RepositoryContent.GetName value) ".yaml" ||
    HasSuffix (RepositoryContent.GetName value) ".yml"

/-- What `getObject` answers for the blob of a listing entry: `(data, err)`. -/
def fetched (c : Client) (runevent : Event) (value : Option RepositoryContent) :
    Option String × Option GoError :=
  (getObject c [] (RepositoryContent.GetSHA value) runevent).1

/-- The request `getObject` sends for a listing entry. -/
def blobCall (runevent : Event) (value : Option RepositoryContent) : ApiCall :=
  ApiCall.getBlob runevent.Owner runevent.Repository (RepositoryContent.GetSHA value)

/-- Whether a request creates a check run. -/
def isCreate : ApiCall → Bool
  | .createCheckRun .. => true
  | _ => false

/-- Whether a request fetches a blob. -/
def isGetBlob : ApiCall → Bool
  | .getBlob .. => true
  | _ => false

/-! ## A concrete repository

One client, used to run the operations on explicit inputs.  The repository
`acme/app` has a directory `.tekton` (two yaml files and a readme), a
directory `single` (one yaml file whose body starts with a separator), a
directory `broken` (the blob of its second yaml file cannot be fetched), a file
`README.md`, and nothing else.  Pull requests 1 and 2 target `main` of the
base repository from two different forks.  Check runs get the identifiers
100, 101, ... in the order of their creation. -/

/-- A listing entry with a name and a blob identifier. -/
def entry (name sha : String) : Option RepositoryContent :=
  some { Name := some name, SHA := some sha }

/-- The listing of `.tekton`. -/
def tektonListing : List (Option RepositoryContent) :=
  [entry "a.yml" "sha-a", entry "b.yaml" "sha-b", entry "readme.md" "sha-r"]

/-- The listing of `single`. -/
def singleListing : List (Option RepositoryContent) :=
  [entry "notes.txt" "sha-n", entry "c.yaml" "sha-c"]

/-- The listing of `broken`. -/
def brokenListing : List (Option RepositoryContent) :=
  [entry "a.yml" "sha-a", entry "bad.yaml" "sha-bad", entry "b.yaml" "sha-b"]

/-- The base side of the demo pull requests. -/
def demoBase : PullRequestBranch :=
  { Ref := some "main", SHA := some "b0",
    Repo := some { DefaultBranch := some "main", HTMLURL := some "https://github.com/acme/app" } }

/-- The pull request `number` of the demo repository, from a fork whose
default branch and head ref depend on `number`. -/
def demoPullRequest (number : Int) : PullRequest :=
  { Base := some demoBase
    Head := some
      { Ref := some (if number = 1 then "feature" else "hijack")
        SHA := some (if number = 1 then "h1" else "h2")
        Repo := some
          { DefaultBranch := some (if number = 1 then "develop" else "evil")
            HTMLURL := some "https://github.com/fork/app" } }
    User := some { Login := some "contributor" }
    HTMLURL := some "https://github.com/acme/app/pull" }

/-- The demo client. -/
def demoClient : Client where
  GetContents := fun _ _ path _ =>
    if path = ".tekton" then ⟨none, tektonListing, some ⟨200⟩, none⟩
    else if path = "single" then ⟨none, singleListing, some ⟨200⟩, none⟩
    else if path = "broken" then ⟨none, brokenListing, some ⟨200⟩, none⟩
    else if path = "README.md" then
      ⟨some { Name := some "README.md", SHA := some "sha-r" }, [], some ⟨200⟩, none⟩
    else ⟨none, [], some ⟨404⟩, some ⟨"404 Not Found"⟩⟩
  GetBlob := fun _ _ sha =>
    if sha = "sha-a" then ⟨some "Zm9vOiAx", none⟩
    else if sha = "sha-b" then ⟨some "LS0tCmJhcjogMg==", none⟩
    else if sha = "sha-c" then ⟨some "LS0tCng6IDE=", none⟩
    else ⟨none, some ⟨"502 Bad Gateway"⟩⟩
  DecodeString := fun s =>
    if s = "Zm9vOiAx" then .ok "foo: 1"
    else if s = "LS0tCmJhcjogMg==" then .ok "---\nbar: 2"
    else if s = "LS0tCng6IDE=" then .ok "---\nx: 1"
    else if s = "" then .ok ""
    else .error ⟨"illegal base64 data"⟩
  PullRequestsGet := fun _ _ number => ⟨some (demoPullRequest number), none⟩
  CreateCheckRun := fun history _ _ _ =>
    ⟨some { ID := some (100 + (history.filter isCreate).length) }, none⟩
  UpdateCheckRun := fun _ _ _ _ _ => none

/-- An event of the demo repository with no check run yet. -/
def demoEvent : Event :=
  { Owner := "acme", Repository := "app", SHA := "c0ffee", URL := "", SHAURL := "",
    SHATitle := "", BaseBranch := "", HeadBranch := "", DefaultBranch := "", Sender := "",
    EventType := "", CheckRunID := none }

/-- The options of the demo application. -/
def demoPacOpts : PacOpts :=
  { ApplicationName := "pac", LogURL := "https://logs", VCSToken := "", VCSAPIURL := "" }

/-- The first report of the demo run: in progress, no conclusion, on the event
with no check run, the log being empty. -/
def firstReport : (Event × Outcome) × List ApiCall :=
  CreateStatus demoClient 1 2 [] demoEvent demoPacOpts
    { Status := "in_progress", Conclusion := "", Text := "", DetailsURL := "" }

/-- The second report of the demo run: completed with success, on the event as
the first report left it and after the requests of the first report. -/
def secondReport : (Event × Outcome) × List ApiCall :=
  CreateStatus demoClient 3 4 firstReport.2 firstReport.1.1 demoPacOpts
    { Status := "completed", Conclusion := "success", Text := "", DetailsURL := "" }

/-- The demo event once a check run, number 7, is attached to it. -/
def demoEventWithRun : Event := { demoEvent with CheckRunID := some 7 }

/-- A report that the run completed with the given conclusion. -/
def completedWith (conclusion : String) : StatusOpts :=
  { Status := "completed", Conclusion := conclusion, Text := "", DetailsURL := "" }

/-- A report that the run is in progress, carrying the given conclusion. -/
def inProgressWith (conclusion : String) : StatusOpts :=
  { Status := "in_progress", Conclusion := conclusion, Text := "", DetailsURL := "" }

/-- The answer of the demo repository for a commit: a message whose first
paragraph runs over two lines, followed by a blank line and a body. -/
def demoGetCommit : String → String → String → CommitResult :=
  fun _ _ sha =>
    ⟨some
      { Message := some "Fix the parser\nand the lexer\n\nThe long story.\n\nSigned-off-by: dev"
        HTMLURL := some ("https://github.com/acme/app/commit/" ++ sha) },
      none⟩

/-! ## Lemmas on the aggregator -/

theorem getObject_fst (c : Client) (log : List ApiCall) (sha : String) (runevent : Event) :
    (getObject c log sha runevent).1 = (getObject c [] sha runevent).1 := by
  unfold getObject
  dsimp only
  split
  · rfl
  · split <;> rfl

theorem getObject_snd (c : Client) (log : List ApiCall) (sha : String) (runevent : Event) :
    (getObject c log sha runevent).2 =
      log ++ [ApiCall.getBlob runevent.Owner runevent.Repository sha] := by
  unfold getObject
  dsimp only
  split
  · rfl
  · split <;> rfl

theorem getObject_eq (c : Client) (log : List ApiCall) (runevent : Event)
    (value : Option RepositoryContent) :
    getObject c log (RepositoryContent.GetSHA value) runevent =
      (fetched c runevent value, log ++ [blobCall runevent value]) := by
  apply Prod.ext
  · exact getObject_fst c log _ runevent
  · exact getObject_snd c log _ runevent

theorem concatLoop_cons_skip (c : Client) (runevent : Event) (value : Option RepositoryContent)
    (rest : List (Option RepositoryContent)) (acc : String) (log : List ApiCall)
    (h : recognized value = false) :
    concatLoop c runevent (value :: rest) acc log = concatLoop c runevent rest acc log := by
  unfold recognized at h
  rw [concatLoop, if_neg (by simp [h])]

theorem concatLoop_cons_err (c : Client) (runevent : Event) (value : Option RepositoryContent)
    (rest : List (Option RepositoryContent)) (acc : String) (log : List ApiCall) (e : GoError)
    (h : recognized value = true) (he : (fetched c runevent value).2 = some e) :
    concatLoop c runevent (value :: rest) acc log =
      (("", some e), log ++ [blobCall runevent value]) := by
  unfold recognized at h
  rw [concatLoop, if_pos h, getObject_eq]
  rcases hf : fetched c runevent value with ⟨d, err⟩
  rw [hf] at he
  simp only at he
  subst he
  rfl

theorem concatLoop_cons_ok (c : Client) (runevent : Event) (value : Option RepositoryContent)
    (rest : List (Option RepositoryContent)) (acc : String) (log : List ApiCall)
    (h : recognized value = true) (he : (fetched c runevent value).2 = none) :
    concatLoop c runevent (value :: rest) acc log =
      concatLoop c runevent rest
        ((if acc != "" && !HasPrefix ((fetched c runevent value).1.getD "") "---"
            then acc ++ "---" else acc) ++
          ("\n" ++ (fetched c runevent value).1.getD "" ++ "\n"))
        (log ++ [blobCall runevent value]) := by
  unfold recognized at h
  rw [concatLoop, if_pos h, getObject_eq]
  rcases hf : fetched c runevent value with ⟨d, err⟩
  rw [hf] at he
  simp only at he
  subst he
  rfl

theorem concatLoop_filter (c : Client) (runevent : Event)
    (objects : List (Option RepositoryContent)) :
    ∀ (acc : String) (log : List ApiCall),
      concatLoop c runevent (objects.filter recognized) acc log =
        concatLoop c runevent objects acc log := by
  induction objects with
  | nil => intro acc log; rfl
  | cons value rest ih =>
    intro acc log
    cases h : recognized value with
    | false =>
      rw [List.filter_cons_of_neg (by simp [h]), concatLoop_cons_skip c runevent value rest acc log h]
      exact ih acc log
    | true =>
      rw [List.filter_cons_of_pos h]
      cases he : (fetched c runevent value).2 with
      | some e =>
        rw [concatLoop_cons_err c runevent value _ acc log e h he,
          concatLoop_cons_err c runevent value _ acc log e h he]
      | none =>
        rw [concatLoop_cons_ok c runevent value _ acc log h he,
          concatLoop_cons_ok c runevent value _ acc log h he]
        exact ih _ _

theorem concatLoop_fst_log (c : Client) (runevent : Event)
    (objects : List (Option RepositoryContent)) :
    ∀ (acc : String) (log log2 : List ApiCall),
      (concatLoop c runevent objects acc log).1 = (concatLoop c runevent objects acc log2).1 := by
  induction objects with
  | nil => intro acc log log2; rfl
  | cons value rest ih =>
    intro acc log log2
    cases h : recognized value with
    | false =>
      rw [concatLoop_cons_skip c runevent value rest acc log h,
        concatLoop_cons_skip c runevent value rest acc log2 h]
      exact ih acc log log2
    | true =>
      cases he : (fetched c runevent value).2 with
      | some e =>
        rw [concatLoop_cons_err c runevent value _ acc log e h he,
          concatLoop_cons_err c runevent value _ acc log2 e h he]
      | none =>
        rw [concatLoop_cons_ok c runevent value _ acc log h he,
          concatLoop_cons_ok c runevent value _ acc log2 h he]
        exact ih _ _ _

theorem concatLoop_err_fst (c : Client) (runevent : Event)
    (objects : List (Option RepositoryContent)) :
    ∀ (acc : String) (log : List ApiCall) (e : GoError),
      (concatLoop c runevent objects acc log).1.2 = some e →
        (concatLoop c runevent objects acc log).1.1 = "" := by
  induction objects with
  | nil => intro acc log e h; simp [concatLoop] at h
  | cons value rest ih =>
    intro acc log e
    cases h : recognized value with
    | false =>
      rw [concatLoop_cons_skip c runevent value rest acc log h]
      exact ih acc log e
    | true =>
      cases he : (fetched c runevent value).2 with
      | some e2 =>
        rw [concatLoop_cons_err c runevent value _ acc log e2 h he]
        intro _; rfl
      | none =>
        rw [concatLoop_cons_ok c runevent value _ acc log h he]
        exact ih _ _ e

theorem concatLoop_ok_extends (c : Client) (runevent : Event)
    (objects : List (Option RepositoryContent)) :
    ∀ (acc : String) (log : List ApiCall),
      (∀ x ∈ objects, recognized x = true → (fetched c runevent x).2 = none) →
        ∃ rest, (concatLoop c runevent objects acc log).1 = (acc ++ rest, none) := by
  induction objects with
  | nil => intro acc log _; exact ⟨"", by simp [concatLoop]⟩
  | cons value rest ih =>
    intro acc log hall
    have hrest : ∀ x ∈ rest, recognized x = true → (fetched c runevent x).2 = none :=
      fun x hx => hall x (List.mem_cons_of_mem _ hx)
    cases h : recognized value with
    | false =>
      rw [concatLoop_cons_skip c runevent value rest acc log h]
      exact ih acc log hrest
    | true =>
      have he := hall value (List.mem_cons_self _ _) h
      rw [concatLoop_cons_ok c runevent value _ acc log h he]
      obtain ⟨r, hr⟩ := ih
        ((if acc != "" && !HasPrefix ((fetched c runevent value).1.getD "") "---"
            then acc ++ "---" else acc) ++
          ("\n" ++ (fetched c runevent value).1.getD "" ++ "\n"))
        (log ++ [blobCall runevent value]) hrest
      rw [hr]
      split
      · exact ⟨"---" ++ ("\n" ++ (fetched c runevent value).1.getD "" ++ "\n") ++ r, by
          simp [String.append_assoc]⟩
      · exact ⟨("\n" ++ (fetched c runevent value).1.getD "" ++ "\n") ++ r, by
          simp [String.append_assoc]⟩

theorem concatLoop_append (c : Client) (runevent : Event)
    (l1 l2 : List (Option RepositoryContent)) :
    ∀ (acc : String) (log : List ApiCall),
      (∀ x ∈ l1, recognized x = true → (fetched c runevent x).2 = none) →
        concatLoop c runevent (l1 ++ l2) acc log =
          concatLoop c runevent l2 (concatLoop c runevent l1 acc log).1.1
            (concatLoop c runevent l1 acc log).2 := by
  induction l1 with
  | nil => intro acc log _; rfl
  | cons value rest ih =>
    intro acc log hall
    have hrest : ∀ x ∈ rest, recognized x = true → (fetched c runevent x).2 = none :=
      fun x hx => hall x (List.mem_cons_of_mem _ hx)
    rw [List.cons_append]
    cases h : recognized value with
    | false =>
      rw [concatLoop_cons_skip c runevent value _ acc log h,
        concatLoop_cons_skip c runevent value _ acc log h]
      exact ih acc log hrest
    | true =>
      have he := hall value (List.mem_cons_self _ _) h
      rw [concatLoop_cons_ok c runevent value _ acc log h he,
        concatLoop_cons_ok c runevent value _ acc log h he]
      exact ih _ _ hrest

theorem CreateStatus_event (c : Client) (nowCreate now : Nat) (log : List ApiCall)
    (runevent : Event) (pacopts : PacOpts) (status : StatusOpts) :
    (CreateStatus c nowCreate now log runevent pacopts status).1.1 = runevent := by
  unfold CreateStatus
  dsimp only
  split
  · rfl
  · split <;> rfl

theorem createCheckRun_snd (c : Client) (now : Nat) (log : List ApiCall) (status : String)
    (runevent : Event) (pacopts : PacOpts) :
    ∃ opts, (createCheckRun c now log status runevent pacopts).2 =
      log ++ [ApiCall.createCheckRun runevent.Owner runevent.Repository opts] :=
  ⟨_, rfl⟩

theorem statusOptions_output (now : Nat) (pacopts : PacOpts) (status : StatusOpts) :
    (statusOptions now pacopts status).Output = some
      { Title :=
          if status.Status = "in_progress" then "CI has Started"
          else if status.Conclusion = "success" then "✅ Success"
          else if status.Conclusion = "failure" then "❌ Failed"
          else if status.Conclusion = "skipped" then "➖ Skipped"
          else if status.Conclusion = "neutral" then "❓ Unknown"
          else ""
        Summary :=
          if status.Status = "in_progress" then pacopts.ApplicationName ++ " is running."
          else if status.Conclusion = "success" then
            pacopts.ApplicationName ++ " has successfully validated your commit."
          else if status.Conclusion = "failure" then
            pacopts.ApplicationName ++ " has <b>failed</b>."
          else if status.Conclusion = "skipped" then
            pacopts.ApplicationName ++ " is skipping this commit."
          else if status.Conclusion = "neutral" then
            pacopts.ApplicationName ++ " doesn't know what happened with this commit."
          else ""
        Text := status.Text } := by
  unfold statusOptions
  dsimp only
  split_ifs <;> rfl

theorem CreateStatus_of_some (c : Client) (nowCreate now : Nat) (log : List ApiCall)
    (runevent : Event) (pacopts : PacOpts) (status : StatusOpts) (id : Int)
    (hid : runevent.CheckRunID = some id) :
    CreateStatus c nowCreate now log runevent pacopts status =
      ((runevent, Outcome.returned (c.UpdateCheckRun log runevent.Owner runevent.Repository id
          (statusOptions now pacopts status))),
        log ++ [ApiCall.updateCheckRun runevent.Owner runevent.Repository id
          (statusOptions now pacopts status)]) := by
  unfold CreateStatus
  simp only [hid]

theorem CreateStatus_sent (c : Client) (nowCreate now : Nat) (log : List ApiCall)
    (runevent : Event) (pacopts : PacOpts) (status : StatusOpts)
    (o r : String) (id : Int) (opts : UpdateCheckRunOptions)
    (hmem : ApiCall.updateCheckRun o r id opts ∈
      (CreateStatus c nowCreate now log runevent pacopts status).2.drop log.length) :
    opts = statusOptions now pacopts status := by
  unfold CreateStatus createCheckRun at hmem
  dsimp only at hmem
  generalize hcr : c.CreateCheckRun _ _ _ _ = res at hmem
  rcases res with ⟨_ | ⟨_ | cid⟩, _ | err⟩ <;> rcases hid : runevent.CheckRunID with _ | id0 <;>
    simp only [hid] at hmem
  all_goals simp at hmem
  all_goals exact hmem.2.2.2

theorem CreateStatus_of_created (c : Client) (nowCreate now : Nat) (log : List ApiCall)
    (runevent : Event) (pacopts : PacOpts) (status : StatusOpts) (id : Int)
    (hid : runevent.CheckRunID = none)
    (hcr : c.CreateCheckRun log runevent.Owner runevent.Repository
        { Name := pacopts.ApplicationName, HeadSHA := runevent.SHA,
          Status := some "in_progress", DetailsURL := some pacopts.LogURL,
          StartedAt := some nowCreate } =
      { checkRun := some { ID := some id }, err := none }) :
    CreateStatus c nowCreate now log runevent pacopts status =
      ((runevent, Outcome.returned (c.UpdateCheckRun
          (log ++ [ApiCall.createCheckRun runevent.Owner runevent.Repository
            { Name := pacopts.ApplicationName, HeadSHA := runevent.SHA,
              Status := some "in_progress", DetailsURL := some pacopts.LogURL,
              StartedAt := some nowCreate }])
          runevent.Owner runevent.Repository id (statusOptions now pacopts status))),
        log ++ [ApiCall.createCheckRun runevent.Owner runevent.Repository
            { Name := pacopts.ApplicationName, HeadSHA := runevent.SHA,
              Status := some "in_progress", DetailsURL := some pacopts.LogURL,
              StartedAt := some nowCreate },
          ApiCall.updateCheckRun runevent.Owner runevent.Repository id
            (statusOptions now pacopts status)]) := by
  unfold CreateStatus createCheckRun
  simp only [hid, hcr, List.append_assoc, List.singleton_append]

theorem concatLoop_ok_fold (c : Client) (runevent : Event)
    (objects : List (Option RepositoryContent)) :
    ∀ (acc : String) (log : List ApiCall),
      (∀ x ∈ objects, recognized x = true → (fetched c runevent x).2 = none) →
        concatLoop c runevent objects acc log =
          ((((objects.filter recognized).map fun x => (fetched c runevent x).1.getD "").foldl
              (fun all data =>
                (if all != "" && !HasPrefix data "---" then all ++ "---" else all) ++
                  ("\n" ++ data ++ "\n")) acc, none),
            log ++ (objects.filter recognized).map (blobCall runevent)) := by
  induction objects with
  | nil => intro acc log _; simp [concatLoop]
  | cons value rest ih =>
    intro acc log hall
    have hrest : ∀ x ∈ rest, recognized x = true → (fetched c runevent x).2 = none :=
      fun x hx => hall x (List.mem_cons_of_mem _ hx)
    cases h : recognized value with
    | false =>
      rw [concatLoop_cons_skip c runevent value rest acc log h,
        List.filter_cons_of_neg (by simp [h])]
      exact ih acc log hrest
    | true =>
      have he := hall value (List.mem_cons_self _ _) h
      rw [concatLoop_cons_ok c runevent value _ acc log h he, List.filter_cons_of_pos h,
        ih _ _ hrest]
      simp

theorem foldl_bodies_extends (bodies : List String) :
    ∀ acc : String, ∃ rest : String,
      bodies.foldl
          (fun all data =>
            (if all != "" && !HasPrefix data "---" then all ++ "---" else all) ++
              ("\n" ++ data ++ "\n")) acc = acc ++ rest := by
  induction bodies with
  | nil => intro acc; exact ⟨"", by simp⟩
  | cons b bs ih =>
    intro acc
    obtain ⟨r, hr⟩ := ih
      ((if acc != "" && !HasPrefix b "---" then acc ++ "---" else acc) ++ ("\n" ++ b ++ "\n"))
    rw [List.foldl_cons, hr]
    split
    · exact ⟨"---" ++ ("\n" ++ b ++ "\n") ++ r, by simp [String.append_assoc]⟩
    · exact ⟨("\n" ++ b ++ "\n") ++ r, by simp [String.append_assoc]⟩

theorem foldl_bodies_contains (bodies : List String) (b : String) (hb : b ∈ bodies) :
    ∀ acc : String, ∃ before after : String,
      bodies.foldl
          (fun all data =>
            (if all != "" && !HasPrefix data "---" then all ++ "---" else all) ++
              ("\n" ++ data ++ "\n")) acc = before ++ ("\n" ++ b ++ "\n") ++ after := by
  induction bodies with
  | nil => simp at hb
  | cons b0 bs ih =>
    intro acc
    rcases List.mem_cons.mp hb with rfl | hmem
    · obtain ⟨r, hr⟩ := foldl_bodies_extends bs
        ((if acc != "" && !HasPrefix b "---" then acc ++ "---" else acc) ++ ("\n" ++ b ++ "\n"))
      rw [List.foldl_cons, hr]
      exact ⟨_, r, rfl⟩
    · rw [List.foldl_cons]
      exact ih hmem _

/-! ## The claims -/

/-- C1 (the code on the failing input).  Two reports on one event that has no
check run, in progress and then completed with success: each call returns
without error and leaves `CheckRunID` unset, so the second call creates a
second check run; the first call updates check run 100, the second one check
run 101, and two creation requests are sent in all. -/
theorem C1_two_reports_create_two_check_runs :
    demoEvent.CheckRunID = none ∧
    firstReport.1 = (demoEvent, Outcome.returned none) ∧
    firstReport.1.1.CheckRunID = none ∧
    secondReport.1 = (demoEvent, Outcome.returned none) ∧
    secondReport.2 =
      [ApiCall.createCheckRun "acme" "app"
          { Name := "pac", HeadSHA := "c0ffee", Status := some "in_progress",
            DetailsURL := some "https://logs", StartedAt := some 1 },
        ApiCall.updateCheckRun "acme" "app" 100
          { Name := "pac", Status := some "in_progress",
            Output := some
              { Title := "CI has Started", Summary := "pac is running.", Text := "" },
            DetailsURL := none, CompletedAt := none, Conclusion := none },
        ApiCall.createCheckRun "acme" "app"
          { Name := "pac", HeadSHA := "c0ffee", Status := some "in_progress",
            DetailsURL := some "https://logs", StartedAt := some 3 },
        ApiCall.updateCheckRun "acme" "app" 101
          { Name := "pac", Status := some "completed",
            Output := some
              { Title := "✅ Success",
                Summary := "pac has successfully validated your commit.", Text := "" },
            DetailsURL := none, CompletedAt := some 4, Conclusion := some "success" }] ∧
    (secondReport.2.filter isCreate).length = 2 := by
  refine ⟨rfl, ?_, ?_, ?_, ?_, ?_⟩ <;> decide

/-- C2 (the claim fails).  On the demo repository the listing of `.tekton` is
`a.yml`, `b.yaml`, `readme.md`, the two yaml blobs are fetched with the bodies
`foo: 1` and `---\nbar: 2`, and `GetTektonDir` returns
`"\nfoo: 1\n\n---\nbar: 2\n"`, which is not the string of the claim. -/
theorem C2_counterexample :
    (demoClient.GetContents "acme" "app" ".tekton" "c0ffee").objects =
      [entry "a.yml" "sha-a", entry "b.yaml" "sha-b", entry "readme.md" "sha-r"] ∧
    fetched demoClient demoEvent (entry "a.yml" "sha-a") = (some "foo: 1", none) ∧
    fetched demoClient demoEvent (entry "b.yaml" "sha-b") = (some "---\nbar: 2", none) ∧
    (GetTektonDir demoClient [] demoEvent ".tekton").1 = ("\nfoo: 1\n\n---\nbar: 2\n", none) ∧
    (GetTektonDir demoClient [] demoEvent ".tekton").1 ≠ ("\nfoo: 1\n---\n---\nbar: 2\n", none) := by
  refine ⟨?_, ?_, ?_, ?_, ?_⟩ <;> decide

/-- C2 (amended).  When the listing of `path` is a directory holding, in this
order, `a.yml`, `b.yaml` and `readme.md`, and the blobs of the two yaml files
are fetched with the bodies `foo: 1` and `---\nbar: 2`, `GetTektonDir` returns
`"\nfoo: 1\n\n---\nbar: 2\n"` with no error: each body between two
newlines, in listing order, no separator added before the body that starts
with one; it fetches the two yaml blobs and not the readme. -/
theorem C2_scenario_manifest (c : Client) (log : List ApiCall) (runevent : Event)
    (path : String) (a b r : Option RepositoryContent)
    (hfp : (c.GetContents runevent.Owner runevent.Repository path runevent.SHA).fp = none)
    (hresp : ∀ resp, (c.GetContents runevent.Owner runevent.Repository path runevent.SHA).resp =
      some resp → resp.StatusCode ≠ StatusNotFound)
    (herr : (c.GetContents runevent.Owner runevent.Repository path runevent.SHA).err = none)
    (hobj : (c.GetContents runevent.Owner runevent.Repository path runevent.SHA).objects =
      [a, b, r])
    (hna : RepositoryContent.GetName a = "a.yml")
    (hnb : RepositoryContent.GetName b = "b.yaml")
    (hnr : RepositoryContent.GetName r = "readme.md")
    (hfa : fetched c runevent a = (some "foo: 1", none))
    (hfb : fetched c runevent b = (some "---\nbar: 2", none)) :
    GetTektonDir c log runevent path =
      (("\nfoo: 1\n\n---\nbar: 2\n", none),
        log ++ [ApiCall.getContents runevent.Owner runevent.Repository path runevent.SHA,
          blobCall runevent a, blobCall runevent b]) := by
  have hra : recognized a = true := by unfold recognized; rw [hna]; decide
  have hrb : recognized b = true := by unfold recognized; rw [hnb]; decide
  have hrr : recognized r = false := by unfold recognized; rw [hnr]; decide
  have h404 : (match (c.GetContents runevent.Owner runevent.Repository path runevent.SHA).resp with
      | some resp => resp.StatusCode == StatusNotFound
      | none => false) = false := by
    split
    · rename_i resp hr
      simpa using hresp resp hr
    · rfl
  unfold GetTektonDir
  simp only [hfp, h404, herr, hobj, Option.isSome_none, Bool.false_eq_true, if_false]
  unfold concatAllYamlFiles
  rw [concatLoop_cons_ok c runevent a _ _ _ hra (by rw [hfa]),
    concatLoop_cons_ok c runevent b _ _ _ hrb (by rw [hfb]),
    concatLoop_cons_skip c runevent r _ _ _ hrr, hfa, hfb]
  simp only [concatLoop, List.append_assoc, List.singleton_append]
  refine congrArg₂ Prod.mk (congrArg₂ Prod.mk ?_ rfl) ?_
  · decide
  · simp

/-- C2 (amended), on the demo repository. -/
theorem C2_scenario_manifest_witness :
    GetTektonDir demoClient [] demoEvent ".tekton" =
      (("\nfoo: 1\n\n---\nbar: 2\n", none),
        [] ++ [ApiCall.getContents demoEvent.Owner demoEvent.Repository ".tekton" demoEvent.SHA,
          blobCall demoEvent (entry "a.yml" "sha-a"),
          blobCall demoEvent (entry "b.yaml" "sha-b")]) :=
  C2_scenario_manifest demoClient [] demoEvent ".tekton" (entry "a.yml" "sha-a")
    (entry "b.yaml" "sha-b") (entry "readme.md" "sha-r") (by decide) (by decide) (by decide)
    (by decide) (by decide) (by decide) (by decide) (by decide) (by decide)

/-- C3 (the claim fails).  On the demo event with check run 7, the reports
`completed` with `success`, `failure`, `skipped` and `neutral` send the titles
`✅ Success`, `❌ Failed`, `➖ Skipped` and `❓ Unknown`, and the summary of
`failure` is `pac has <b>failed</b>.`: not the titles and the summary of the
claim. -/
theorem C3_counterexample :
    ((CreateStatus demoClient 1 2 [] demoEventWithRun demoPacOpts (completedWith "success")).2 =
        [ApiCall.updateCheckRun "acme" "app" 7
          { Name := "pac", Status := some "completed",
            Output := some
              { Title := "✅ Success",
                Summary := "pac has successfully validated your commit.", Text := "" },
            DetailsURL := none, CompletedAt := some 2, Conclusion := some "success" }] ∧
      "✅ Success" ≠ "Success") ∧
    ((CreateStatus demoClient 1 2 [] demoEventWithRun demoPacOpts (completedWith "failure")).2 =
        [ApiCall.updateCheckRun "acme" "app" 7
          { Name := "pac", Status := some "completed",
            Output := some
              { Title := "❌ Failed", Summary := "pac has <b>failed</b>.", Text := "" },
            DetailsURL := none, CompletedAt := some 2, Conclusion := some "failure" }] ∧
      "❌ Failed" ≠ "Failed" ∧ "pac has <b>failed</b>." ≠ "pac" ++ " has failed.") ∧
    ((CreateStatus demoClient 1 2 [] demoEventWithRun demoPacOpts (completedWith "skipped")).2 =
        [ApiCall.updateCheckRun "acme" "app" 7
          { Name := "pac", Status := some "completed",
            Output := some
              { Title := "➖ Skipped", Summary := "pac is skipping this commit.", Text := "" },
            DetailsURL := none, CompletedAt := some 2, Conclusion := some "skipped" }] ∧
      "➖ Skipped" ≠ "Skipped") ∧
    ((CreateStatus demoClient 1 2 [] demoEventWithRun demoPacOpts (completedWith "neutral")).2 =
        [ApiCall.updateCheckRun "acme" "app" 7
          { Name := "pac", Status := some "completed",
            Output := some
              { Title := "❓ Unknown",
                Summary := "pac doesn't know what happened with this commit.", Text := "" },
            DetailsURL := none, CompletedAt := some 2, Conclusion := some "neutral" }] ∧
      "❓ Unknown" ≠ "Unknown") := by
  refine ⟨⟨?_, ?_⟩, ⟨?_, ?_, ?_⟩, ⟨?_, ?_⟩, ⟨?_, ?_⟩⟩ <;> decide

/-- C3 (amended).  For every application name and every status that is not
`in_progress`, `CreateStatus` sends an update whose title and summary are
those of the conclusion: `success` gives `✅ Success` and
`<app> has successfully validated your commit.`, `failure` gives `❌ Failed`
and `<app> has <b>failed</b>.`, `skipped` gives `➖ Skipped` and
`<app> is skipping this commit.`, `neutral` gives `❓ Unknown` and
`<app> doesn't know what happened with this commit.`  When the event has a
check run, the call sends exactly that update, to that check run; when it has
none and the creation answers with a check run, the call sends the creation
and then exactly that update, to the new check run; and no other update is
ever sent. -/
theorem C3_conclusion_presentation (c : Client) (nowCreate now : Nat) (log : List ApiCall)
    (runevent : Event) (pacopts : PacOpts) (status : StatusOpts)
    (hst : status.Status ≠ "in_progress") :
    (∀ o r id opts, ApiCall.updateCheckRun o r id opts ∈
        (CreateStatus c nowCreate now log runevent pacopts status).2.drop log.length →
      (status.Conclusion = "success" → opts.Output = some
        { Title := "✅ Success"
          Summary := pacopts.ApplicationName ++ " has successfully validated your commit."
          Text := status.Text }) ∧
      (status.Conclusion = "failure" → opts.Output = some
        { Title := "❌ Failed"
          Summary := pacopts.ApplicationName ++ " has <b>failed</b>."
          Text := status.Text }) ∧
      (status.Conclusion = "skipped" → opts.Output = some
        { Title := "➖ Skipped"
          Summary := pacopts.ApplicationName ++ " is skipping this commit."
          Text := status.Text }) ∧
      (status.Conclusion = "neutral" → opts.Output = some
        { Title := "❓ Unknown"
          Summary := pacopts.ApplicationName ++ " doesn't know what happened with this commit."
          Text := status.Text })) ∧
    (∀ id, runevent.CheckRunID = some id → ∃ opts,
      (CreateStatus c nowCreate now log runevent pacopts status).2.drop log.length =
        [ApiCall.updateCheckRun runevent.Owner runevent.Repository id opts]) ∧
    (∃ opts : UpdateCheckRunOptions,
      ((status.Conclusion = "success" → opts.Output = some
          { Title := "✅ Success"
            Summary := pacopts.ApplicationName ++ " has successfully validated your commit."
            Text := status.Text }) ∧
        (status.Conclusion = "failure" → opts.Output = some
          { Title := "❌ Failed"
            Summary := pacopts.ApplicationName ++ " has <b>failed</b>."
            Text := status.Text }) ∧
        (status.Conclusion = "skipped" → opts.Output = some
          { Title := "➖ Skipped"
            Summary := pacopts.ApplicationName ++ " is skipping this commit."
            Text := status.Text }) ∧
        (status.Conclusion = "neutral" → opts.Output = some
          { Title := "❓ Unknown"
            Summary := pacopts.ApplicationName ++
              " doesn't know what happened with this commit."
            Text := status.Text })) ∧
      (∀ id, runevent.CheckRunID = some id →
        CreateStatus c nowCreate now log runevent pacopts status =
          ((runevent, Outcome.returned
              (c.UpdateCheckRun log runevent.Owner runevent.Repository id opts)),
            log ++ [ApiCall.updateCheckRun runevent.Owner runevent.Repository id opts])) ∧
      (∀ id, runevent.CheckRunID = none →
        c.CreateCheckRun log runevent.Owner runevent.Repository
            { Name := pacopts.ApplicationName, HeadSHA := runevent.SHA,
              Status := some "in_progress", DetailsURL := some pacopts.LogURL,
              StartedAt := some nowCreate } =
          { checkRun := some { ID := some id }, err := none } →
        CreateStatus c nowCreate now log runevent pacopts status =
          ((runevent, Outcome.returned (c.UpdateCheckRun
              (log ++ [ApiCall.createCheckRun runevent.Owner runevent.Repository
                { Name := pacopts.ApplicationName, HeadSHA := runevent.SHA,
                  Status := some "in_progress", DetailsURL := some pacopts.LogURL,
                  StartedAt := some nowCreate }])
              runevent.Owner runevent.Repository id opts)),
            log ++ [ApiCall.createCheckRun runevent.Owner runevent.Repository
                { Name := pacopts.ApplicationName, HeadSHA := runevent.SHA,
                  Status := some "in_progress", DetailsURL := some pacopts.LogURL,
                  StartedAt := some nowCreate },
              ApiCall.updateCheckRun runevent.Owner runevent.Repository id opts]))) := by
  have hout : ∀ opts : UpdateCheckRunOptions, opts = statusOptions now pacopts status →
      (status.Conclusion = "success" → opts.Output = some
        { Title := "✅ Success"
          Summary := pacopts.ApplicationName ++ " has successfully validated your commit."
          Text := status.Text }) ∧
      (status.Conclusion = "failure" → opts.Output = some
        { Title := "❌ Failed"
          Summary := pacopts.ApplicationName ++ " has <b>failed</b>."
          Text := status.Text }) ∧
      (status.Conclusion = "skipped" → opts.Output = some
        { Title := "➖ Skipped"
          Summary := pacopts.ApplicationName ++ " is skipping this commit."
          Text := status.Text }) ∧
      (status.Conclusion = "neutral" → opts.Output = some
        { Title := "❓ Unknown"
          Summary := pacopts.ApplicationName ++ " doesn't know what happened with this commit."
          Text := status.Text }) := by
    intro opts hopts
    subst hopts
    rw [statusOptions_output]
    refine ⟨?_, ?_, ?_, ?_⟩ <;> intro hc <;> simp [hst, hc]
  refine ⟨?_, ?_, statusOptions now pacopts status, hout _ rfl, ?_, ?_⟩
  · intro o r id opts hmem
    exact hout opts
      (CreateStatus_sent c nowCreate now log runevent pacopts status o r id opts hmem)
  · intro id hid
    refine ⟨statusOptions now pacopts status, ?_⟩
    rw [CreateStatus_of_some c nowCreate now log runevent pacopts status id hid]
    simp
  · intro id hid
    exact CreateStatus_of_some c nowCreate now log runevent pacopts status id hid
  · intro id hid hcr
    exact CreateStatus_of_created c nowCreate now log runevent pacopts status id hid hcr

/-- C3 (amended), on the demo repository and a report of success: on the
event with check run 7 the update carries `✅ Success`, and on the event with
no check run the call creates check run 100 and sends it an update. -/
theorem C3_conclusion_presentation_witness :
    (completedWith "success").Status ≠ "in_progress" ∧
    (statusOptions 2 demoPacOpts (completedWith "success")).Output = some
      { Title := "✅ Success"
        Summary := demoPacOpts.ApplicationName ++ " has successfully validated your commit."
        Text := (completedWith "success").Text } ∧
    ∃ opts : UpdateCheckRunOptions,
      opts.Output = some
        { Title := "✅ Success"
          Summary := demoPacOpts.ApplicationName ++ " has successfully validated your commit."
          Text := (completedWith "success").Text } ∧
      (CreateStatus demoClient 1 2 [] demoEvent demoPacOpts (completedWith "success")).2 =
        [] ++ [ApiCall.createCheckRun demoEvent.Owner demoEvent.Repository
            { Name := demoPacOpts.ApplicationName, HeadSHA := demoEvent.SHA,
              Status := some "in_progress", DetailsURL := some demoPacOpts.LogURL,
              StartedAt := some 1 },
          ApiCall.updateCheckRun demoEvent.Owner demoEvent.Repository 100 opts] :=
  ⟨by decide,
    ((C3_conclusion_presentation demoClient 1 2 [] demoEventWithRun demoPacOpts
      (completedWith "success") (by decide)).1 "acme" "app" 7
      (statusOptions 2 demoPacOpts (completedWith "success")) (by decide)).1 rfl,
    (C3_conclusion_presentation demoClient 1 2 [] demoEvent demoPacOpts
      (completedWith "success") (by decide)).2.2.elim fun opts h =>
        ⟨opts, h.1.1 rfl, congrArg Prod.snd (h.2.2 100 rfl (by decide))⟩⟩

/-- C4.  Whenever `getPullRequest` succeeds, the event it returns has
`DefaultBranch` equal to the default branch of the base repository of the pull
request, `BaseBranch` equal to the base ref, and `EventType` equal to
`pull_request`; and two successful resolutions whose pull requests have the
same base side give the same `DefaultBranch` and `BaseBranch`, whatever their
head sides, authors and URLs are. -/
theorem C4_base_branch_from_base_side (c1 c2 : Client) (log1 log2 : List ApiCall)
    (ev1 ev2 : Event) (n1 n2 : Int)
    (h1 : (getPullRequest c1 log1 ev1 n1).1.2 = none)
    (h2 : (getPullRequest c2 log2 ev2 n2).1.2 = none) :
    ((getPullRequest c1 log1 ev1 n1).1.1.DefaultBranch =
        Repo.GetDefaultBranch (PullRequestBranch.GetRepo (PullRequest.GetBase
          (c1.PullRequestsGet ev1.Owner ev1.Repository n1).pr)) ∧
      (getPullRequest c1 log1 ev1 n1).1.1.BaseBranch =
        PullRequestBranch.GetRef (PullRequest.GetBase
          (c1.PullRequestsGet ev1.Owner ev1.Repository n1).pr) ∧
      (getPullRequest c1 log1 ev1 n1).1.1.EventType = "pull_request") ∧
    (PullRequest.GetBase (c1.PullRequestsGet ev1.Owner ev1.Repository n1).pr =
        PullRequest.GetBase (c2.PullRequestsGet ev2.Owner ev2.Repository n2).pr →
      (getPullRequest c1 log1 ev1 n1).1.1.DefaultBranch =
          (getPullRequest c2 log2 ev2 n2).1.1.DefaultBranch ∧
        (getPullRequest c1 log1 ev1 n1).1.1.BaseBranch =
          (getPullRequest c2 log2 ev2 n2).1.1.BaseBranch) := by
  unfold getPullRequest at h1 h2 ⊢
  dsimp only at h1 h2 ⊢
  cases he1 : (c1.PullRequestsGet ev1.Owner ev1.Repository n1).err with
  | some e => rw [he1] at h1; simp at h1
  | none =>
    cases he2 : (c2.PullRequestsGet ev2.Owner ev2.Repository n2).err with
    | some e => rw [he2] at h2; simp at h2
    | none =>
      refine ⟨⟨rfl, rfl, rfl⟩, ?_⟩
      intro hbase
      dsimp only
      rw [hbase]
      exact ⟨rfl, rfl⟩

/-- C4, on pull requests 1 and 2 of the demo repository: same base side, head
sides from two forks whose default branches are `develop` and `evil`. -/
theorem C4_base_branch_from_base_side_witness :
    PullRequest.GetHead (demoClient.PullRequestsGet "acme" "app" 1).pr ≠
      PullRequest.GetHead (demoClient.PullRequestsGet "acme" "app" 2).pr ∧
    (getPullRequest demoClient [] demoEvent 1).1.1.DefaultBranch = "main" ∧
    (getPullRequest demoClient [] demoEvent 1).1.1.DefaultBranch =
      (getPullRequest demoClient [] demoEvent 2).1.1.DefaultBranch ∧
    (getPullRequest demoClient [] demoEvent 1).1.1.BaseBranch =
      (getPullRequest demoClient [] demoEvent 2).1.1.BaseBranch :=
  ⟨by decide,
    (C4_base_branch_from_base_side demoClient demoClient [] [] demoEvent demoEvent 1 2
      (by decide) (by decide)).1.1,
    (C4_base_branch_from_base_side demoClient demoClient [] [] demoEvent demoEvent 1 2
      (by decide) (by decide)).2 (by decide)⟩

/-- C5.  When the listing of `path` answers with no file content and a 404
response, `GetTektonDir` returns the empty string and no error, whatever error
and entries come with the answer, and sends no request but the listing: no
blob is fetched. -/
theorem C5_missing_path_is_empty_success (c : Client) (log : List ApiCall) (runevent : Event)
    (path : String)
    (hfp : (c.GetContents runevent.Owner runevent.Repository path runevent.SHA).fp = none)
    (hresp : (c.GetContents runevent.Owner runevent.Repository path runevent.SHA).resp =
      some { StatusCode := StatusNotFound }) :
    GetTektonDir c log runevent path =
      (("", none),
        log ++ [ApiCall.getContents runevent.Owner runevent.Repository path runevent.SHA]) := by
  unfold GetTektonDir
  simp [hfp, hresp]

/-- C5, on a path the demo repository does not have: the client reports the
error `404 Not Found`, and the result is empty with no error. -/
theorem C5_missing_path_is_empty_success_witness :
    (demoClient.GetContents "acme" "app" "nothing-here" "c0ffee").err =
      some ⟨"404 Not Found"⟩ ∧
    GetTektonDir demoClient [] demoEvent "nothing-here" =
      (("", none), [] ++ [ApiCall.getContents "acme" "app" "nothing-here" "c0ffee"]) :=
  ⟨by decide,
    C5_missing_path_is_empty_success demoClient [] demoEvent "nothing-here" (by decide)
      (by decide)⟩

/-- C6.  When the listing of `path` answers with file content, `GetTektonDir`
returns the empty string and the error
`the object <path> is a file instead of a directory`, whatever response, error
and entries come with the answer, and sends no request but the listing. -/
theorem C6_file_is_not_a_directory (c : Client) (log : List ApiCall) (runevent : Event)
    (path : String) (file : RepositoryContent)
    (hfp : (c.GetContents runevent.Owner runevent.Repository path runevent.SHA).fp = some file) :
    GetTektonDir c log runevent path =
      (("", some ⟨"the object " ++ path ++ " is a file instead of a directory"⟩),
        log ++ [ApiCall.getContents runevent.Owner runevent.Repository path runevent.SHA]) := by
  unfold GetTektonDir
  simp [hfp]

/-- C6, on the file `README.md` of the demo repository. -/
theorem C6_file_is_not_a_directory_witness :
    GetTektonDir demoClient [] demoEvent "README.md" =
      (("", some ⟨"the object " ++ "README.md" ++ " is a file instead of a directory"⟩),
        [] ++ [ApiCall.getContents "acme" "app" "README.md" "c0ffee"]) :=
  C6_file_is_not_a_directory demoClient [] demoEvent "README.md"
    { Name := some "README.md", SHA := some "sha-r" } (by decide)

/-- C7.  For every status that is `in_progress` and every conclusion,
`CreateStatus` sends an update with the title `CI has Started` and the summary
`<app> is running.`  When the event has a check run, the call sends exactly
that update, to that check run; when it has none and the creation answers
with a check run, the call sends the creation and then exactly that update, to
the new check run; and no other update is ever sent. -/
theorem C7_in_progress_presentation (c : Client) (nowCreate now : Nat) (log : List ApiCall)
    (runevent : Event) (pacopts : PacOpts) (status : StatusOpts)
    (hst : status.Status = "in_progress") :
    (∀ o r id opts, ApiCall.updateCheckRun o r id opts ∈
        (CreateStatus c nowCreate now log runevent pacopts status).2.drop log.length →
      opts.Output = some
        { Title := "CI has Started"
          Summary := pacopts.ApplicationName ++ " is running."
          Text := status.Text }) ∧
    (∀ id, runevent.CheckRunID = some id → ∃ opts,
      (CreateStatus c nowCreate now log runevent pacopts status).2.drop log.length =
        [ApiCall.updateCheckRun runevent.Owner runevent.Repository id opts]) ∧
    (∃ opts : UpdateCheckRunOptions,
      opts.Output = some
        { Title := "CI has Started"
          Summary := pacopts.ApplicationName ++ " is running."
          Text := status.Text } ∧
      (∀ id, runevent.CheckRunID = some id →
        CreateStatus c nowCreate now log runevent pacopts status =
          ((runevent, Outcome.returned
              (c.UpdateCheckRun log runevent.Owner runevent.Repository id opts)),
            log ++ [ApiCall.updateCheckRun runevent.Owner runevent.Repository id opts])) ∧
      (∀ id, runevent.CheckRunID = none →
        c.CreateCheckRun log runevent.Owner runevent.Repository
            { Name := pacopts.ApplicationName, HeadSHA := runevent.SHA,
              Status := some "in_progress", DetailsURL := some pacopts.LogURL,
              StartedAt := some nowCreate } =
          { checkRun := some { ID := some id }, err := none } →
        CreateStatus c nowCreate now log runevent pacopts status =
          ((runevent, Outcome.returned (c.UpdateCheckRun
              (log ++ [ApiCall.createCheckRun runevent.Owner runevent.Repository
                { Name := pacopts.ApplicationName, HeadSHA := runevent.SHA,
                  Status := some "in_progress", DetailsURL := some pacopts.LogURL,
                  StartedAt := some nowCreate }])
              runevent.Owner runevent.Repository id opts)),
            log ++ [ApiCall.createCheckRun runevent.Owner runevent.Repository
                { Name := pacopts.ApplicationName, HeadSHA := runevent.SHA,
                  Status := some "in_progress", DetailsURL := some pacopts.LogURL,
                  StartedAt := some nowCreate },
              ApiCall.updateCheckRun runevent.Owner runevent.Repository id opts]))) := by
  have hout : (statusOptions now pacopts status).Output = some
      { Title := "CI has Started"
        Summary := pacopts.ApplicationName ++ " is running."
        Text := status.Text } := by
    rw [statusOptions_output]
    simp [hst]
  refine ⟨?_, ?_, statusOptions now pacopts status, hout, ?_, ?_⟩
  · intro o r id opts hmem
    have hopts := CreateStatus_sent c nowCreate now log runevent pacopts status o r id opts hmem
    subst hopts
    exact hout
  · intro id hid
    refine ⟨statusOptions now pacopts status, ?_⟩
    rw [CreateStatus_of_some c nowCreate now log runevent pacopts status id hid]
    simp
  · intro id hid
    exact CreateStatus_of_some c nowCreate now log runevent pacopts status id hid
  · intro id hid hcr
    exact CreateStatus_of_created c nowCreate now log runevent pacopts status id hid hcr

/-- C7, on the demo repository and an in-progress report that carries the
stale conclusion `failure`: on the event with check run 7 the update carries
`CI has Started`, and on the event with no check run (a first report) the call
creates check run 100 and sends it an update with `CI has Started`. -/
theorem C7_in_progress_presentation_witness :
    (inProgressWith "failure").Status = "in_progress" ∧
    (statusOptions 2 demoPacOpts (inProgressWith "failure")).Output = some
      { Title := "CI has Started"
        Summary := demoPacOpts.ApplicationName ++ " is running."
        Text := (inProgressWith "failure").Text } ∧
    ∃ opts : UpdateCheckRunOptions,
      opts.Output = some
        { Title := "CI has Started"
          Summary := demoPacOpts.ApplicationName ++ " is running."
          Text := (inProgressWith "failure").Text } ∧
      (CreateStatus demoClient 1 2 [] demoEvent demoPacOpts (inProgressWith "failure")).2 =
        [] ++ [ApiCall.createCheckRun demoEvent.Owner demoEvent.Repository
            { Name := demoPacOpts.ApplicationName, HeadSHA := demoEvent.SHA,
              Status := some "in_progress", DetailsURL := some demoPacOpts.LogURL,
              StartedAt := some 1 },
          ApiCall.updateCheckRun demoEvent.Owner demoEvent.Repository 100 opts] :=
  ⟨by decide,
    (C7_in_progress_presentation demoClient 1 2 [] demoEventWithRun demoPacOpts
      (inProgressWith "failure") (by decide)).1 "acme" "app" 7
      (statusOptions 2 demoPacOpts (inProgressWith "failure")) (by decide),
    (C7_in_progress_presentation demoClient 1 2 [] demoEvent demoPacOpts
      (inProgressWith "failure") (by decide)).2.2.elim fun opts h =>
        ⟨opts, h.1, congrArg Prod.snd (h.2.2 100 rfl (by decide))⟩⟩

/-- C8 (the claim fails).  The listing of `single` on the demo repository has
one recognized entry, `c.yaml`, whose body `---\nx: 1` starts with the
separator; the aggregate is `"\n---\nx: 1\n"`, not the body. -/
theorem C8_counterexample :
    singleListing.filter recognized = [entry "c.yaml" "sha-c"] ∧
    fetched demoClient demoEvent (entry "c.yaml" "sha-c") = (some "---\nx: 1", none) ∧
    HasPrefix "---\nx: 1" "---" = true ∧
    (concatAllYamlFiles demoClient [] singleListing demoEvent).1 = ("\n---\nx: 1\n", none) ∧
    (concatAllYamlFiles demoClient [] singleListing demoEvent).1 ≠ ("---\nx: 1", none) := by
  refine ⟨?_, ?_, ?_, ?_, ?_⟩ <;> decide

/-- C8 (amended).  For every listing with exactly one recognized entry whose
blob is fetched with a body that starts with the separator `---`, the
aggregate is a newline, the body and a newline, with no error: no separator is
added, and the body is wrapped in the two newlines. -/
theorem C8_single_file_wrapped_in_newlines (c : Client) (log : List ApiCall) (runevent : Event)
    (objects : List (Option RepositoryContent)) (x : Option RepositoryContent) (body : String)
    (hone : objects.filter recognized = [x])
    (hfx : fetched c runevent x = (some body, none))
    (_hsep : HasPrefix body "---" = true) :
    (concatAllYamlFiles c log objects runevent).1 = ("\n" ++ body ++ "\n", none) := by
  have hx : recognized x = true := by
    have hmem : x ∈ objects.filter recognized := by rw [hone]; exact List.mem_singleton_self x
    exact (List.mem_filter.mp hmem).2
  unfold concatAllYamlFiles
  rw [← concatLoop_filter, hone, concatLoop_cons_ok c runevent x _ _ _ hx (by rw [hfx]), hfx]
  simp [concatLoop]

/-- C8 (amended), on the listing of `single` of the demo repository. -/
theorem C8_single_file_wrapped_in_newlines_witness :
    (concatAllYamlFiles demoClient [] singleListing demoEvent).1 =
      ("\n" ++ "---\nx: 1" ++ "\n", none) :=
  C8_single_file_wrapped_in_newlines demoClient [] demoEvent singleListing
    (entry "c.yaml" "sha-c") "---\nx: 1" (by decide) (by decide) (by decide)

/-- C10.  For every listing `l1 ++ l2` whose recognized entries are all
fetched: removing the unrecognized entries leaves the aggregate unchanged; if
no entry is recognized the aggregate is the empty string with no error; the
aggregate of `l1 ++ l2` is the aggregate of `l1` followed by more text (the
entries are taken in listing order, never re-sorted); the aggregate is exactly
the bodies of the recognized entries, in listing order, each between two
newlines and after a separator when the text so far is not empty and the body
does not start with one, and the requests sent are the blob fetches of the
recognized entries, in listing order; so the body of every recognized entry,
between its two newlines, is part of the aggregate. -/
theorem C10_only_yaml_in_listing_order (c : Client) (log : List ApiCall) (runevent : Event)
    (l1 l2 : List (Option RepositoryContent))
    (hall : ∀ x ∈ l1 ++ l2, recognized x = true → (fetched c runevent x).2 = none) :
    (concatAllYamlFiles c log ((l1 ++ l2).filter recognized) runevent).1 =
        (concatAllYamlFiles c log (l1 ++ l2) runevent).1 ∧
    ((l1 ++ l2).filter recognized = [] →
      (concatAllYamlFiles c log (l1 ++ l2) runevent).1 = ("", none)) ∧
    (concatAllYamlFiles c log l1 runevent).1.2 = none ∧
    (∃ rest, (concatAllYamlFiles c log (l1 ++ l2) runevent).1 =
      ((concatAllYamlFiles c log l1 runevent).1.1 ++ rest, none)) ∧
    concatAllYamlFiles c log (l1 ++ l2) runevent =
      (((((l1 ++ l2).filter recognized).map fun x => (fetched c runevent x).1.getD "").foldl
          (fun all data =>
            (if all != "" && !HasPrefix data "---" then all ++ "---" else all) ++
              ("\n" ++ data ++ "\n")) "", none),
        log ++ ((l1 ++ l2).filter recognized).map (blobCall runevent)) ∧
    (∀ x ∈ l1 ++ l2, recognized x = true → ∃ before after : String,
      (concatAllYamlFiles c log (l1 ++ l2) runevent).1.1 =
        before ++ ("\n" ++ (fetched c runevent x).1.getD "" ++ "\n") ++ after) := by
  have h1 : ∀ x ∈ l1, recognized x = true → (fetched c runevent x).2 = none :=
    fun x hx => hall x (List.mem_append_left _ hx)
  have h2 : ∀ x ∈ l2, recognized x = true → (fetched c runevent x).2 = none :=
    fun x hx => hall x (List.mem_append_right _ hx)
  unfold concatAllYamlFiles
  refine ⟨by rw [concatLoop_filter], ?_, ?_, ?_, ?_, ?_⟩
  · intro hnone
    rw [← concatLoop_filter, hnone]
    rfl
  · obtain ⟨r, hr⟩ := concatLoop_ok_extends c runevent l1 "" log h1
    rw [hr]
  · rw [concatLoop_append c runevent l1 l2 "" log h1]
    exact concatLoop_ok_extends c runevent l2 _ _ h2
  · exact concatLoop_ok_fold c runevent (l1 ++ l2) "" log hall
  · intro x hx hrx
    rw [concatLoop_ok_fold c runevent (l1 ++ l2) "" log hall]
    exact foldl_bodies_contains _ _
      (List.mem_map.mpr ⟨x, List.mem_filter.mpr ⟨hx, hrx⟩, rfl⟩) ""

/-- C10, on the listing of `.tekton` of the demo repository, split after
`a.yml`: the aggregate of the first part opens the aggregate of the whole, and
the body of `b.yaml` is part of the aggregate. -/
theorem C10_only_yaml_in_listing_order_witness :
    (concatAllYamlFiles demoClient [] [entry "a.yml" "sha-a"] demoEvent).1 =
      ("\nfoo: 1\n", none) ∧
    (concatAllYamlFiles demoClient []
        ([entry "a.yml" "sha-a"] ++ [entry "b.yaml" "sha-b", entry "readme.md" "sha-r"])
        demoEvent).1 = ("\nfoo: 1\n" ++ "\n---\nbar: 2\n", none) ∧
    (concatAllYamlFiles demoClient []
        (([entry "a.yml" "sha-a"] ++
          [entry "b.yaml" "sha-b", entry "readme.md" "sha-r"]).filter recognized) demoEvent).1 =
      (concatAllYamlFiles demoClient []
        ([entry "a.yml" "sha-a"] ++ [entry "b.yaml" "sha-b", entry "readme.md" "sha-r"])
        demoEvent).1 ∧
    ∃ before after : String,
      (concatAllYamlFiles demoClient []
        ([entry "a.yml" "sha-a"] ++ [entry "b.yaml" "sha-b", entry "readme.md" "sha-r"])
        demoEvent).1.1 =
        before ++ ("\n" ++ (fetched demoClient demoEvent (entry "b.yaml" "sha-b")).1.getD "" ++
          "\n") ++ after :=
  ⟨by decide, by decide,
    (C10_only_yaml_in_listing_order demoClient [] demoEvent [entry "a.yml" "sha-a"]
      [entry "b.yaml" "sha-b", entry "readme.md" "sha-r"] (by decide)).1,
    (C10_only_yaml_in_listing_order demoClient [] demoEvent [entry "a.yml" "sha-a"]
      [entry "b.yaml" "sha-b", entry "readme.md" "sha-r"] (by decide)).2.2.2.2.2
      (entry "b.yaml" "sha-b") (by decide) (by decide)⟩

/-! ## Lemmas on the commit resolver -/

theorem splitAux_head (sep : List Char) (s : List Char) :
    ∀ cur : List Char, ∃ t rem tail,
      splitAux sep s 0 cur = (cur ++ t) :: tail ∧ s = t ++ rem ∧
      (rem = [] ∨ sep <+: rem) ∧
      ∀ a b, t = a ++ b → b ≠ [] → ¬ sep <+: b ++ rem := by
  induction s with
  | nil =>
    intro cur
    exact ⟨[], [], [], by simp [splitAux], rfl, Or.inl rfl, by
      intro a b hab hb
      have := List.append_eq_nil.mp hab.symm
      exact absurd this.2 hb⟩
  | cons ch rest ih =>
    intro cur
    by_cases hp : sep.isPrefixOf (ch :: rest) = true
    · refine ⟨[], ch :: rest, splitAux sep rest (sep.length - 1) [], ?_, rfl,
        Or.inr (List.isPrefixOf_iff_prefix.mp hp), ?_⟩
      · rw [splitAux, if_pos hp]; simp
      · intro a b hab hb
        have := List.append_eq_nil.mp hab.symm
        exact absurd this.2 hb
    · obtain ⟨t, rem, tail, hsplit, hrest, hrem, hfirst⟩ := ih (cur ++ [ch])
      refine ⟨ch :: t, rem, tail, ?_, by rw [hrest]; rfl, hrem, ?_⟩
      · rw [splitAux, if_neg hp, hsplit]; simp
      · intro a b hab hb hpre
        cases a with
        | nil =>
          rw [List.nil_append] at hab
          subst hab
          rw [List.cons_append, ← hrest] at hpre
          exact hp (List.isPrefixOf_iff_prefix.mpr hpre)
        | cons x a2 =>
          rw [List.cons_append] at hab
          injection hab with _ hab2
          exact hfirst a2 b hab2 hb hpre

theorem Split_head (s sep : String) (hsep : sep ≠ "") :
    ∃ title rem : String, (Split s sep).headD "" = title ∧ s = title ++ rem ∧
      (rem = "" ∨ HasPrefix rem sep = true) ∧
      ∀ a b, title.data = a ++ b → b ≠ [] → ¬ sep.data <+: b ++ rem.data := by
  obtain ⟨t, rem, tail, hsplit, hs, hrem, hfirst⟩ := splitAux_head sep.data s.data []
  refine ⟨⟨t⟩, ⟨rem⟩, ?_, ?_, ?_, hfirst⟩
  · unfold Split
    rw [if_neg hsep, hsplit]
    rfl
  · apply String.ext
    rw [String.data_append]
    exact hs
  · rcases hrem with h | h
    · left; rw [h]
    · right
      unfold HasPrefix
      exact List.isPrefixOf_iff_prefix.mpr h

/-! ## The claims, continued -/

/-- C11 (the claim fails).  On the demo commit, whose message opens with a
paragraph of two lines, `populateCommitInfo` succeeds and sets `SHATitle` to
the two lines `Fix the parser\nand the lexer`: not the first line
`Fix the parser`, and a text that contains a newline. -/
theorem C11_counterexample :
    Commit.GetMessage (demoGetCommit "acme" "app" "c0ffee").commit =
      "Fix the parser\nand the lexer\n\nThe long story.\n\nSigned-off-by: dev" ∧
    (populateCommitInfo demoGetCommit demoEvent).2 = none ∧
    (populateCommitInfo demoGetCommit demoEvent).1.SHATitle =
      "Fix the parser\nand the lexer" ∧
    (populateCommitInfo demoGetCommit demoEvent).1.SHATitle ≠ "Fix the parser" ∧
    '\n' ∈ (populateCommitInfo demoGetCommit demoEvent).1.SHATitle.data := by
  refine ⟨?_, ?_, ?_, ?_, ?_⟩ <;> decide

/-- C11 (amended).  Whenever `populateCommitInfo` succeeds, `SHATitle` is the
text of the commit message before its first blank line, that is before the
first occurrence of two newline characters in a row, and the whole message if
there is none: the message is `SHATitle` followed by a remainder that is empty
or starts with two newlines, no two newlines in a row begin inside `SHATitle`
(even counting the remainder), and so `SHATitle` never contains two newlines
in a row. -/
theorem C11_title_is_first_paragraph (GetCommit : String → String → String → CommitResult)
    (runevent : Event) (h : (populateCommitInfo GetCommit runevent).2 = none) :
    ∃ rem : String,
      Commit.GetMessage (GetCommit runevent.Owner runevent.Repository runevent.SHA).commit =
        (populateCommitInfo GetCommit runevent).1.SHATitle ++ rem ∧
      (rem = "" ∨ HasPrefix rem "\n\n" = true) ∧
      (∀ a b, (populateCommitInfo GetCommit runevent).1.SHATitle.data = a ++ b → b ≠ [] →
        ¬ ['\n', '\n'] <+: b ++ rem.data) ∧
      ¬ ['\n', '\n'] <:+: (populateCommitInfo GetCommit runevent).1.SHATitle.data := by
  unfold populateCommitInfo at h ⊢
  dsimp only at h ⊢
  cases herr : (GetCommit runevent.Owner runevent.Repository runevent.SHA).err with
  | some e => rw [herr] at h; simp at h
  | none =>
    dsimp only
    obtain ⟨title, rem, hhead, hmsg, hrem, hfirst⟩ := Split_head
      (Commit.GetMessage (GetCommit runevent.Owner runevent.Repository runevent.SHA).commit)
      "\n\n" (by decide)
    rw [hhead]
    refine ⟨rem, hmsg, hrem, hfirst, ?_⟩
    rintro ⟨a, b, hab⟩
    refine hfirst a (['\n', '\n'] ++ b) (by rw [← hab, List.append_assoc]) (by simp) ?_
    exact ⟨b ++ rem.data, by simp⟩

/-- C11 (amended), on the demo commit. -/
theorem C11_title_is_first_paragraph_witness :
    (populateCommitInfo demoGetCommit demoEvent).1.SHATitle = "Fix the parser\nand the lexer" ∧
    ∃ rem : String,
      Commit.GetMessage (demoGetCommit demoEvent.Owner demoEvent.Repository demoEvent.SHA).commit =
        (populateCommitInfo demoGetCommit demoEvent).1.SHATitle ++ rem ∧
      (rem = "" ∨ HasPrefix rem "\n\n" = true) ∧
      (∀ a b, (populateCommitInfo demoGetCommit demoEvent).1.SHATitle.data = a ++ b → b ≠ [] →
        ¬ ['\n', '\n'] <+: b ++ rem.data) ∧
      ¬ ['\n', '\n'] <:+: (populateCommitInfo demoGetCommit demoEvent).1.SHATitle.data :=
  ⟨by decide, C11_title_is_first_paragraph demoGetCommit demoEvent (by decide)⟩

end Github
